import Mathlib

/-
Verification of the THRML API server (`src/thrml_api/app.py`).

The repository contains a single Flask wrapper around the external `thrml`
sampling library.  The wrapper code (parameter extraction with defaults,
chain-topology construction, even/odd block partition, response shape,
exception-to-error-response mapping) is embedded here directly from
`app.py`.  The sampling engine itself (`IsingEBM`, `hinton_init`,
`SamplingSchedule`, `sample_states`, and the splittable random keys of
`jax.random`) is not part of the repository sources, so those components
are modelled from the specification (spec sections 3, 4.1 to 4.6): a pure
splittable key stream, a bias-sign ("Hinton") initializer, the Ising local
field, per-node conditional resampling by comparing a uniform draw against
a sigmoid of twice the local field, block-synchronous sweeps, and the
warmup / record schedule.  The logistic function and the uniform draws are
replaced by computable rational surrogates (a monotone sigmoid-shaped
rational function and a linear-congruential stream); no claim below
depends on the numeric values of the conditional probabilities, only on
determinism, schedule structure, state shape, and spin-valuedness, all of
which the surrogates preserve exactly.
-/

namespace THRML

/-- Modelled from the spec (section 4.3): the splittable random key stream of
`jax.random.split`. A key deterministically splits into two independent
sub-keys; any injective pure pairing works as a model. -/
def splitKey (k : Nat) : Nat × Nat := (2 * k + 1, 2 * k + 2)

/-- Modelled from the spec (section 4.5): the uniform draw taken from one
random sub-stream slot, as a rational in [0, 1).  A linear-congruential
surrogate stands in for the real generator; claims depend only on the
draw being a pure function of the key. -/
def uniformDraw (k : Nat) : ℚ := (((k * 1103515245 + 12345) % 1024 : Nat) : ℚ) / 1024

/-- Modelled from the spec (section 4.1): computable rational surrogate for
the logistic function `sigmoid`.  It is monotone with values in (0, 1) and
value 1/2 at 0, which is all the claims use. -/
def sigmoidModel (x : ℚ) : ℚ := 1 / 2 + x / (2 * (1 + |x|))

/-- Modelled from the spec (section 4.5, per-node resampling): set the node
to +1 if the uniform draw `u` is below `sigmoid(2 h)`, else to -1, where
`h` is the local field. -/
def spinFromDraw (u h : ℚ) : Int := if u < sigmoidModel (2 * h) then 1 else -1

/-- Modelled from the spec (sections 3 and 4.1): the Ising energy-based
model of `thrml.models.IsingEBM`: node count, edge list over node indices,
per-node biases, per-edge coupling weights, and inverse temperature. -/
structure IsingEBM where
  n_nodes : Nat
  edges : List (Nat × Nat)
  biases : List ℚ
  weights : List ℚ
  beta : ℚ
deriving DecidableEq

/-- Modelled from the spec (section 4.1, Errors): `IsingEBM` construction
fails with a configuration error if the bias or weight array lengths
mismatch the node or edge counts; on success it returns the model.  The
error value carries a human-readable message and an error-kind tag, the
pair the Flask handler serializes from a caught exception. -/
def IsingEBM.make (n : Nat) (edges : List (Nat × Nat)) (biases weights : List ℚ)
    (beta : ℚ) : Except (String × String) IsingEBM :=
  if biases.length ≠ n then
    .error ("biases length does not match number of nodes", "ValueError")
  else if weights.length ≠ edges.length then
    .error ("weights length does not match number of edges", "ValueError")
  else
    .ok ⟨n, edges, biases, weights, beta⟩

/-- Modelled from the spec (section 4.1): the local field of node `i`,
`h = beta * (b_i + sum over incident edges of w_e * s_neighbor)`. -/
def localField (m : IsingEBM) (st : List Int) (i : Nat) : ℚ :=
  m.beta * (m.biases.getD i 0 +
    ((m.edges.zip m.weights).map (fun ew =>
      if ew.1.1 = i then ew.2 * ((st.getD ew.1.2 0 : Int) : ℚ)
      else if ew.1.2 = i then ew.2 * ((st.getD ew.1.1 0 : Int) : ℚ)
      else 0)).sum)

/-- Modelled from the spec (section 4.5): resample one node from its exact
conditional distribution, consuming one random sub-stream slot. -/
def resampleNode (key : Nat) (m : IsingEBM) (st : List Int) (i : Nat) : Int :=
  spinFromDraw (uniformDraw key) (localField m st i)

/-- Modelled from the spec (section 4.5): update one block synchronously;
every node of the block is resampled from the state as it stood when the
block update began, then all new values are written back. -/
def updateBlock (key : Nat) (m : IsingEBM) (st : List Int) (block : List Nat) : List Int :=
  (block.map (fun i => (i, resampleNode (key + i) m st i))).foldl
    (fun s p => s.set p.1 p.2) st

/-- Modelled from the spec (section 4.5): one sweep is one full pass over
all blocks in fixed order, each block's new values written back before the
next block is processed; the key is split once per block update. -/
def sweep (m : IsingEBM) (blocks : List (List Nat)) (ks : Nat × List Int) :
    Nat × List Int :=
  blocks.foldl (fun p b =>
    ((splitKey p.1).2, updateBlock (splitKey p.1).1 m p.2 b)) ks

/-- Modelled from the spec (section 4.5): run `n` consecutive sweeps,
threading the key and the joint state. -/
def runSweeps (m : IsingEBM) (blocks : List (List Nat)) :
    Nat → Nat × List Int → Nat × List Int
  | 0, ks => ks
  | n + 1, ks => runSweeps m blocks n (sweep m blocks ks)

/-- Modelled from the spec (section 4.5, schedule execution): repeat `n`
times: perform `sps` sweeps, then record the post-sweep joint state. -/
def recordLoop (m : IsingEBM) (blocks : List (List Nat)) (sps : Nat) :
    Nat → Nat × List Int → List (List Int)
  | 0, _ => []
  | n + 1, ks =>
    let ks' := runSweeps m blocks sps ks
    ks'.2 :: recordLoop m blocks sps n ks'

/-- Modelled from the spec (section 4.6): the pure schedule configuration
`thrml.SamplingSchedule`. -/
structure SamplingSchedule where
  n_warmup : Nat
  n_samples : Nat
  steps_per_sample : Nat
deriving DecidableEq

/-- Modelled from the spec (section 4.5): `thrml.sample_states`: perform the
warmup sweeps producing no output, then record `n_samples` states separated
by `steps_per_sample` sweeps each. -/
def sample_states (key : Nat) (m : IsingEBM) (blocks : List (List Nat))
    (sched : SamplingSchedule) (init : List Int) : List (List Int) :=
  recordLoop m blocks sched.steps_per_sample sched.n_samples
    (runSweeps m blocks sched.n_warmup (key, init))

/-- Modelled from the spec (section 4.4): `thrml.models.hinton_init`
produces an initial joint state biased toward the mode favored by each
node's bias sign, with sub-seeded tie-breaking randomness on zero bias. -/
def hinton_init (key : Nat) (m : IsingEBM) : List Int :=
  (List.range m.n_nodes).map fun i =>
    let b := m.biases.getD i 0
    if 0 < b then 1 else if b < 0 then -1 else spinFromDraw (uniformDraw (key + i)) 0

/-- The JSON request body accepted by the `/sample/ising` endpoints of
`app.py`; every field may be absent (`data.get` with a default). -/
structure IsingRequest where
  n_nodes : Option Nat
  weights : Option (List ℚ)
  biases : Option (List ℚ)
  beta : Option ℚ
  n_warmup : Option Nat
  n_samples : Option Nat
  steps_per_sample : Option Nat
  random_key : Option Nat
deriving DecidableEq

/-- The fully defaulted parameter set, mirroring the `data.get(...)` block
of `sample_ising` in `app.py`. -/
structure IsingConfig where
  n_nodes : Nat
  weights : List ℚ
  biases : List ℚ
  beta : ℚ
  n_warmup : Nat
  n_samples : Nat
  steps_per_sample : Nat
  random_key : Nat
deriving DecidableEq

/-- Parameter extraction of `sample_ising` (`app.py` lines 42-49): each
absent field takes its hard-coded default; the weights default is a list of
0.5 of length `n_nodes - 1`, the biases default all zeros of length
`n_nodes`. -/
def extractConfig (data : IsingRequest) : IsingConfig :=
  let n_nodes := data.n_nodes.getD 5
  { n_nodes := n_nodes
    weights := data.weights.getD (List.replicate (n_nodes - 1) (1 / 2 : ℚ))
    biases := data.biases.getD (List.replicate n_nodes 0)
    beta := data.beta.getD 1
    n_warmup := data.n_warmup.getD 100
    n_samples := data.n_samples.getD 1000
    steps_per_sample := data.steps_per_sample.getD 2
    random_key := data.random_key.getD 0 }

/-- Chain topology of `app.py` line 53: edges between consecutive nodes,
`(i, i+1)` for `i` below `n_nodes - 1`. -/
def chainEdges (n : Nat) : List (Nat × Nat) :=
  (List.range (n - 1)).map fun i => (i, i + 1)

/-- The even block `Block(nodes[::2])` of `app.py` line 59: node indices
0, 2, 4, ... -/
def evenBlock (n : Nat) : List Nat :=
  (List.range n).filter fun i => i % 2 = 0

/-- The odd block `Block(nodes[1::2])` of `app.py` line 59: node indices
1, 3, 5, ... -/
def oddBlock (n : Nat) : List Nat :=
  (List.range n).filter fun i => i % 2 = 1

/-- The two-color free block partition of `app.py` line 59. -/
def freeBlocks (n : Nat) : List (List Nat) := [evenBlock n, oddBlock n]

/-- The JSON response of `/sample/ising`: either the success payload
(samples, final state, sample count, and the model-info metadata) or the
failure payload built in the `except` clause (error message and the
exception class name). -/
inductive IsingResponse where
  | success (samples : List (List Int)) (final_state : Option (List Int))
      (n_samples : Nat) (n_nodes : Nat) (beta : ℚ) (n_edges : Nat)
  | failure (error : String) (error_type : String)
deriving DecidableEq

/-- Whether a response is the success payload. -/
def IsingResponse.isSuccess : IsingResponse → Bool
  | .success _ _ _ _ _ _ => true
  | .failure _ _ => false

/-- The `/sample/ising` handler of `app.py` (lines 21-105): extract the
parameters with defaults, build the chain model, partition into even/odd
blocks, split the key into the init and sampling sub-keys, initialize,
sample per the schedule, and return samples, `samples[-1]` (or null when
empty), `len(samples)`, and the metadata; a construction error is caught
and returned as the failure payload. -/
def sample_ising (data : IsingRequest) : IsingResponse :=
  let cfg := extractConfig data
  let edges := chainEdges cfg.n_nodes
  match IsingEBM.make cfg.n_nodes edges cfg.biases cfg.weights cfg.beta with
  | .error e => .failure e.1 e.2
  | .ok model =>
    let kk := splitKey cfg.random_key
    let init_state := hinton_init kk.1 model
    let schedule : SamplingSchedule :=
      ⟨cfg.n_warmup, cfg.n_samples, cfg.steps_per_sample⟩
    let samples := sample_states kk.2 model (freeBlocks cfg.n_nodes) schedule init_state
    .success samples samples.getLast? samples.length cfg.n_nodes cfg.beta edges.length

/-- The joint state reached after the warmup sweeps of `sample_ising` on
this request (none when model construction fails). -/
def postWarmupState (data : IsingRequest) : Option (List Int) :=
  let cfg := extractConfig data
  match IsingEBM.make cfg.n_nodes (chainEdges cfg.n_nodes) cfg.biases cfg.weights cfg.beta with
  | .error _ => none
  | .ok model =>
    let kk := splitKey cfg.random_key
    some (runSweeps model (freeBlocks cfg.n_nodes) cfg.n_warmup
      (kk.2, hinton_init kk.1 model)).2

/-- The JSON response of `/sample/ising/stream`: `sample` is `samples[0]`
(null when empty), `state` is `samples[-1]` (null when empty). -/
inductive StreamResponse where
  | success (sample : Option (List Int)) (state : Option (List Int))
  | failure (error : String) (error_type : String)
deriving DecidableEq

/-- The `/sample/ising/stream` handler of `app.py` (lines 107-146): same
extraction except that `n_warmup` and `n_samples` are never read; the
schedule is fixed to zero warmup and one sample. -/
def sample_ising_stream (data : IsingRequest) : StreamResponse :=
  let n_nodes := data.n_nodes.getD 5
  let weights := data.weights.getD (List.replicate (n_nodes - 1) (1 / 2 : ℚ))
  let biases := data.biases.getD (List.replicate n_nodes 0)
  let beta := data.beta.getD 1
  let steps_per_sample := data.steps_per_sample.getD 2
  let random_key := data.random_key.getD 0
  let edges := chainEdges n_nodes
  match IsingEBM.make n_nodes edges biases weights beta with
  | .error e => .failure e.1 e.2
  | .ok model =>
    let kk := splitKey random_key
    let init_state := hinton_init kk.1 model
    let schedule : SamplingSchedule := ⟨0, 1, steps_per_sample⟩
    let samples := sample_states kk.2 model (freeBlocks n_nodes) schedule init_state
    .success samples.head? samples.getLast?

/-- The server-side state a resumable streaming implementation would
persist across calls: a joint chain state plus a random-stream position.
`app.py` holds no such state (it has no mutable module-level variables), so
the state-passing embeddings below neither read nor write it. -/
def ServerState := Option (List Int × Nat)

/-- State-passing embedding of one `/sample/ising` call: the handler body
of `app.py` references no server-side mutable state, so the response is
computed from the payload alone and the server state is left unchanged. -/
def sample_ising_run (data : IsingRequest) (st : ServerState) :
    IsingResponse × ServerState :=
  (sample_ising data, st)

/-- State-passing embedding of one `/sample/ising/stream` call: the handler
body of `app.py` references no server-side mutable state, so the response
is computed from the payload alone and the server state is left
unchanged. -/
def sample_ising_stream_run (data : IsingRequest) (st : ServerState) :
    StreamResponse × ServerState :=
  (sample_ising_stream data, st)

/-- A joint state is a spin state for `n` nodes when it has length `n` and
every entry is +1 or -1. -/
def isSpinState (n : Nat) (v : List Int) : Bool :=
  v.length == n && v.all fun x => x == 1 || x == -1

end THRML

namespace THRML

/-- Writing values back into a list one index at a time preserves its
length. -/
theorem foldl_set_length (l : List (Nat × Int)) (st : List Int) :
    (l.foldl (fun s p => s.set p.1 p.2) st).length = st.length := by
  induction l generalizing st with
  | nil => rfl
  | cons a t ih => simp [List.foldl_cons, ih, List.length_set]

/-- A block update preserves the length of the joint state. -/
theorem updateBlock_length (key : Nat) (m : IsingEBM) (st : List Int) (block : List Nat) :
    (updateBlock key m st block).length = st.length := by
  simp [updateBlock, foldl_set_length]

/-- A sweep preserves the length of the joint state. -/
theorem sweep_length (m : IsingEBM) (blocks : List (List Nat)) (ks : Nat × List Int) :
    (sweep m blocks ks).2.length = ks.2.length := by
  unfold sweep
  induction blocks generalizing ks with
  | nil => rfl
  | cons b t ih => simp [List.foldl_cons, ih, updateBlock_length]

/-- Running sweeps preserves the length of the joint state. -/
theorem runSweeps_length (m : IsingEBM) (blocks : List (List Nat)) (n : Nat)
    (ks : Nat × List Int) : (runSweeps m blocks n ks).2.length = ks.2.length := by
  induction n generalizing ks with
  | zero => rfl
  | succ n ih => rw [runSweeps, ih, sweep_length]

/-- The record loop emits exactly one state per iteration. -/
theorem recordLoop_length (m : IsingEBM) (blocks : List (List Nat)) (sps n : Nat)
    (ks : Nat × List Int) : (recordLoop m blocks sps n ks).length = n := by
  induction n generalizing ks with
  | zero => rfl
  | succ n ih => simp [recordLoop, ih]

/-- Every state emitted by the record loop has the length of the input
state. -/
theorem recordLoop_mem_length (m : IsingEBM) (blocks : List (List Nat)) (sps n : Nat)
    (ks : Nat × List Int) :
    ∀ s ∈ recordLoop m blocks sps n ks, s.length = ks.2.length := by
  induction n generalizing ks with
  | zero => intro s hs; simp [recordLoop] at hs
  | succ n ih =>
    intro s hs
    rw [recordLoop] at hs
    rcases List.mem_cons.mp hs with h | h
    · rw [h, runSweeps_length]
    · rw [ih _ s h, runSweeps_length]

/-- Per-node resampling always produces a spin value. -/
theorem spinFromDraw_isSpin (u h : ℚ) : spinFromDraw u h = 1 ∨ spinFromDraw u h = -1 := by
  unfold spinFromDraw; split <;> simp

/-- Writing spin values into a spin-valued list keeps every entry a spin
value. -/
theorem foldl_set_spin (l : List (Nat × Int)) (st : List Int)
    (hst : ∀ x ∈ st, x = 1 ∨ x = -1) (hl : ∀ p ∈ l, p.2 = 1 ∨ p.2 = -1) :
    ∀ x ∈ l.foldl (fun s p => s.set p.1 p.2) st, x = 1 ∨ x = -1 := by
  induction l generalizing st with
  | nil => exact hst
  | cons a t ih =>
    intro x hx
    rw [List.foldl_cons] at hx
    refine ih (st.set a.1 a.2) ?_ (fun p hp => hl p (List.mem_cons_of_mem a hp)) x hx
    intro y hy
    rcases List.mem_or_eq_of_mem_set hy with h | h
    · exact hst y h
    · rw [h]; exact hl a (List.mem_cons_self a t)

/-- A block update keeps every entry a spin value. -/
theorem updateBlock_spin (key : Nat) (m : IsingEBM) (st : List Int) (block : List Nat)
    (hst : ∀ x ∈ st, x = 1 ∨ x = -1) :
    ∀ x ∈ updateBlock key m st block, x = 1 ∨ x = -1 := by
  unfold updateBlock
  refine foldl_set_spin _ st hst ?_
  intro p hp
  rcases List.mem_map.mp hp with ⟨i, _, hi⟩
  rw [← hi]
  exact spinFromDraw_isSpin _ _

/-- A sweep keeps every entry a spin value. -/
theorem sweep_spin (m : IsingEBM) (blocks : List (List Nat)) (ks : Nat × List Int)
    (hst : ∀ x ∈ ks.2, x = 1 ∨ x = -1) :
    ∀ x ∈ (sweep m blocks ks).2, x = 1 ∨ x = -1 := by
  unfold sweep
  induction blocks generalizing ks with
  | nil => exact hst
  | cons b t ih =>
    rw [List.foldl_cons]
    exact ih _ (updateBlock_spin _ m ks.2 b hst)

/-- Running sweeps keeps every entry a spin value. -/
theorem runSweeps_spin (m : IsingEBM) (blocks : List (List Nat)) (n : Nat)
    (ks : Nat × List Int) (hst : ∀ x ∈ ks.2, x = 1 ∨ x = -1) :
    ∀ x ∈ (runSweeps m blocks n ks).2, x = 1 ∨ x = -1 := by
  induction n generalizing ks with
  | zero => exact hst
  | succ n ih => rw [runSweeps]; exact ih _ (sweep_spin m blocks ks hst)

/-- Every state emitted by the record loop is spin valued. -/
theorem recordLoop_spin (m : IsingEBM) (blocks : List (List Nat)) (sps n : Nat)
    (ks : Nat × List Int) (hst : ∀ x ∈ ks.2, x = 1 ∨ x = -1) :
    ∀ s ∈ recordLoop m blocks sps n ks, ∀ x ∈ s, x = 1 ∨ x = -1 := by
  induction n generalizing ks with
  | zero => intro s hs; simp [recordLoop] at hs
  | succ n ih =>
    intro s hs
    rw [recordLoop] at hs
    rcases List.mem_cons.mp hs with h | h
    · rw [h]; exact runSweeps_spin m blocks sps ks hst
    · exact ih _ (runSweeps_spin m blocks sps ks hst) s h

/-- The Hinton initializer produces one value per node. -/
theorem hinton_init_length (key : Nat) (m : IsingEBM) :
    (hinton_init key m).length = m.n_nodes := by
  simp [hinton_init]

/-- The Hinton initializer produces only spin values. -/
theorem hinton_init_spin (key : Nat) (m : IsingEBM) :
    ∀ x ∈ hinton_init key m, x = 1 ∨ x = -1 := by
  intro x hx
  rcases List.mem_map.mp hx with ⟨i, _, hi⟩
  dsimp at hi
  split at hi
  · left; omega
  · split at hi
    · right; omega
    · rw [← hi]; exact spinFromDraw_isSpin _ _

/-- The sampler records exactly `n_samples` states. -/
theorem sample_states_length (key : Nat) (m : IsingEBM) (blocks : List (List Nat))
    (sched : SamplingSchedule) (init : List Int) :
    (sample_states key m blocks sched init).length = sched.n_samples := by
  simp [sample_states, recordLoop_length]

/-- Every recorded state has the length of the initial state. -/
theorem sample_states_mem_length (key : Nat) (m : IsingEBM) (blocks : List (List Nat))
    (sched : SamplingSchedule) (init : List Int) :
    ∀ s ∈ sample_states key m blocks sched init, s.length = init.length := by
  intro s hs
  rw [sample_states] at hs
  rw [recordLoop_mem_length _ _ _ _ _ s hs, runSweeps_length]

/-- Every recorded state is spin valued when the initial state is. -/
theorem sample_states_spin (key : Nat) (m : IsingEBM) (blocks : List (List Nat))
    (sched : SamplingSchedule) (init : List Int)
    (hinit : ∀ x ∈ init, x = 1 ∨ x = -1) :
    ∀ s ∈ sample_states key m blocks sched init, ∀ x ∈ s, x = 1 ∨ x = -1 := by
  intro s hs
  rw [sample_states] at hs
  exact recordLoop_spin _ _ _ _ _ (runSweeps_spin m blocks sched.n_warmup _ hinit) s hs

/-- With zero sweeps between records, the record loop repeats the current
state. -/
theorem recordLoop_zero_sps (m : IsingEBM) (blocks : List (List Nat)) (n : Nat)
    (ks : Nat × List Int) :
    recordLoop m blocks 0 n ks = List.replicate n ks.2 := by
  induction n generalizing ks with
  | zero => rfl
  | succ n ih => rw [recordLoop, List.replicate_succ]; exact congrArg _ (ih ks)

/-- With `steps_per_sample = 0` the sampler records `n_samples` copies of
the post-warmup state. -/
theorem sample_states_zero_sps (key : Nat) (m : IsingEBM) (blocks : List (List Nat))
    (w n : Nat) (init : List Int) :
    sample_states key m blocks ⟨w, n, 0⟩ init =
      List.replicate n (runSweeps m blocks w (key, init)).2 := by
  rw [sample_states, recordLoop_zero_sps]

end THRML

namespace THRML

/-- The sample list computed inside `sample_ising` once the model has been
constructed. -/
def runSamplesOf (p : IsingRequest) (model : IsingEBM) : List (List Int) :=
  sample_states (splitKey (extractConfig p).random_key).2 model
    (freeBlocks (extractConfig p).n_nodes)
    ⟨(extractConfig p).n_warmup, (extractConfig p).n_samples, (extractConfig p).steps_per_sample⟩
    (hinton_init (splitKey (extractConfig p).random_key).1 model)

/-- When model construction fails, `sample_ising` returns the failure
payload made of the error message and kind. -/
theorem sample_ising_error (p : IsingRequest) (e : String × String)
    (hmk : IsingEBM.make (extractConfig p).n_nodes (chainEdges (extractConfig p).n_nodes)
      (extractConfig p).biases (extractConfig p).weights (extractConfig p).beta = .error e) :
    sample_ising p = .failure e.1 e.2 := by
  simp [sample_ising, hmk]

/-- When model construction succeeds, `sample_ising` returns the success
payload built from the recorded samples. -/
theorem sample_ising_ok (p : IsingRequest) (model : IsingEBM)
    (hmk : IsingEBM.make (extractConfig p).n_nodes (chainEdges (extractConfig p).n_nodes)
      (extractConfig p).biases (extractConfig p).weights (extractConfig p).beta = .ok model) :
    sample_ising p = .success (runSamplesOf p model) (runSamplesOf p model).getLast?
      (runSamplesOf p model).length (extractConfig p).n_nodes (extractConfig p).beta
      (chainEdges (extractConfig p).n_nodes).length := by
  simp [sample_ising, runSamplesOf, hmk]

/-- Construction succeeds exactly by returning the record of its inputs. -/
theorem IsingEBM.make_ok_inv {n : Nat} {edges : List (Nat × Nat)} {biases weights : List ℚ}
    {beta : ℚ} {m : IsingEBM}
    (h : IsingEBM.make n edges biases weights beta = .ok m) :
    m = ⟨n, edges, biases, weights, beta⟩ := by
  unfold IsingEBM.make at h
  split at h
  · cases h
  · split at h
    · cases h
    · cases h; rfl

/-- Inversion of a successful `sample_ising` run: the model was constructed
from the extracted configuration and every response component is the one
computed by the handler. -/
theorem sample_ising_success_inv (p : IsingRequest) (s : List (List Int))
    (f : Option (List Int)) (ns nn : Nat) (b : ℚ) (ne : Nat)
    (h : sample_ising p = .success s f ns nn b ne) :
    ∃ model, IsingEBM.make (extractConfig p).n_nodes (chainEdges (extractConfig p).n_nodes)
      (extractConfig p).biases (extractConfig p).weights (extractConfig p).beta = .ok model ∧
      model = ⟨(extractConfig p).n_nodes, chainEdges (extractConfig p).n_nodes,
        (extractConfig p).biases, (extractConfig p).weights, (extractConfig p).beta⟩ ∧
      s = runSamplesOf p model ∧ f = s.getLast? ∧ ns = s.length ∧
      nn = (extractConfig p).n_nodes ∧ b = (extractConfig p).beta ∧
      ne = (chainEdges (extractConfig p).n_nodes).length := by
  cases hmk : IsingEBM.make (extractConfig p).n_nodes (chainEdges (extractConfig p).n_nodes)
      (extractConfig p).biases (extractConfig p).weights (extractConfig p).beta with
  | error e => rw [sample_ising_error p e hmk] at h; cases h
  | ok model =>
    rw [sample_ising_ok p model hmk] at h
    cases h
    exact ⟨model, rfl, IsingEBM.make_ok_inv hmk, rfl, rfl, rfl, rfl, rfl, rfl⟩

/-- Unfolding of the spin-state check. -/
theorem isSpinState_iff (n : Nat) (v : List Int) :
    isSpinState n v = true ↔ v.length = n ∧ ∀ x ∈ v, x = 1 ∨ x = -1 := by
  simp [isSpinState, List.all_eq_true]

/-- The handler records exactly the configured number of samples. -/
theorem runSamplesOf_length (p : IsingRequest) (model : IsingEBM) :
    (runSamplesOf p model).length = (extractConfig p).n_samples :=
  sample_states_length ..

/-- Every state recorded by the handler is a spin state on the model's
nodes. -/
theorem runSamplesOf_all_spin (p : IsingRequest) (model : IsingEBM) :
    (runSamplesOf p model).all (isSpinState model.n_nodes) = true := by
  rw [List.all_eq_true]
  intro v hv
  rw [isSpinState_iff]
  refine ⟨?_, ?_⟩
  · rw [sample_states_mem_length _ _ _ _ _ v hv, hinton_init_length]
  · exact sample_states_spin _ _ _ _ _ (hinton_init_spin _ _) v hv

/-- The chain over `n` nodes has `n - 1` edges. -/
theorem chainEdges_length (n : Nat) : (chainEdges n).length = n - 1 := by
  simp [chainEdges]

end THRML

namespace THRML

/-- The samples carried by a response (empty for a failure, which carries
none). -/
def IsingResponse.samplesOf : IsingResponse → List (List Int)
  | .success s _ _ _ _ _ => s
  | .failure _ _ => []

/-- C1: for every configuration payload, running the /sample/ising endpoint
twice with the identical payload (same n_nodes, weights, biases, beta,
n_warmup, n_samples, steps_per_sample, random_key) produces identical
outputs, whatever server-side state either call starts from: the result is
a deterministic function of the payload with no hidden mutable
randomness. -/
theorem sample_ising_deterministic (p q : IsingRequest) (st st' : ServerState)
    (h1 : p.n_nodes = q.n_nodes) (h2 : p.weights = q.weights)
    (h3 : p.biases = q.biases) (h4 : p.beta = q.beta)
    (h5 : p.n_warmup = q.n_warmup) (h6 : p.n_samples = q.n_samples)
    (h7 : p.steps_per_sample = q.steps_per_sample) (h8 : p.random_key = q.random_key) :
    (sample_ising_run p st).1 = (sample_ising_run q st').1 := by
  obtain ⟨a1, a2, a3, a4, a5, a6, a7, a8⟩ := p
  obtain ⟨b1, b2, b3, b4, b5, b6, b7, b8⟩ := q
  obtain rfl : a1 = b1 := h1
  obtain rfl : a2 = b2 := h2
  obtain rfl : a3 = b3 := h3
  obtain rfl : a4 = b4 := h4
  obtain rfl : a5 = b5 := h5
  obtain rfl : a6 = b6 := h6
  obtain rfl : a7 = b7 := h7
  obtain rfl : a8 = b8 := h8
  rfl

/-- Concrete request used to witness C1. -/
def p1w : IsingRequest := ⟨some 2, some [1], some [0, 0], some 1, some 0, some 1, some 1, some 0⟩

/-- Witness for C1: two calls with the same payload from different server
states agree. -/
theorem sample_ising_deterministic_witness :
    (sample_ising_run p1w (Option.none : ServerState)).1 =
      (sample_ising_run p1w (Option.some ([], 0) : ServerState)).1 :=
  sample_ising_deterministic p1w p1w (Option.none : ServerState)
    (Option.some ([], 0) : ServerState) rfl rfl rfl rfl rfl rfl rfl rfl

/-- C2: for every chain of N nodes, the even/odd block partition built by
the endpoint covers the full node index set exactly once each, and no
chain edge joins two nodes of the same block. -/
theorem even_odd_blocks_partition (N : Nat) :
    List.Perm (evenBlock N ++ oddBlock N) (List.range N) ∧
    ∀ e ∈ chainEdges N,
      ¬(e.1 ∈ evenBlock N ∧ e.2 ∈ evenBlock N) ∧
      ¬(e.1 ∈ oddBlock N ∧ e.2 ∈ oddBlock N) := by
  constructor
  · unfold evenBlock oddBlock
    have hpred : ((fun i => decide (i % 2 = 1)) : Nat → Bool) =
        fun i => !(decide (i % 2 = 0)) := by
      funext i
      rcases Nat.mod_two_eq_zero_or_one i with h | h <;> simp [h]
    rw [hpred]
    exact List.filter_append_perm _ _
  · intro e he
    unfold chainEdges at he
    rcases List.mem_map.mp he with ⟨i, _, rfl⟩
    refine ⟨fun hc => ?_, fun hc => ?_⟩
    · obtain ⟨hc1, hc2⟩ := hc
      simp [evenBlock, List.mem_filter] at hc1 hc2
      omega
    · obtain ⟨hc1, hc2⟩ := hc
      simp [oddBlock, List.mem_filter] at hc1 hc2
      omega

/-- Witness for C2: on the chain of length 4, the edge (0, 1) joins the two
blocks, not the inside of either. -/
theorem even_odd_blocks_partition_witness :
    ¬((0 : Nat) ∈ evenBlock 4 ∧ (1 : Nat) ∈ evenBlock 4) ∧
    ¬((0 : Nat) ∈ oddBlock 4 ∧ (1 : Nat) ∈ oddBlock 4) :=
  (even_odd_blocks_partition 4).2 (0, 1) (by decide)

/-- C3: a payload whose weights array length differs from n_nodes - 1
(with biases of length n_nodes) yields the configuration-error failure
response, a typed failure value with a non-empty human-readable message and
a non-empty error-kind tag, and no sample output. -/
theorem weights_length_mismatch_error (p : IsingRequest) (ws bs : List ℚ)
    (hw : p.weights = some ws) (hb : p.biases = some bs)
    (hbl : bs.length = (extractConfig p).n_nodes)
    (hwl : ws.length ≠ (extractConfig p).n_nodes - 1) :
    sample_ising p =
      .failure "weights length does not match number of edges" "ValueError" ∧
    (sample_ising p).samplesOf = [] ∧
    "weights length does not match number of edges" ≠ "" ∧
    ("ValueError" : String) ≠ "" := by
  have hcw : (extractConfig p).weights = ws := by simp [extractConfig, hw]
  have hcb : (extractConfig p).biases = bs := by simp [extractConfig, hb]
  have hmk : IsingEBM.make (extractConfig p).n_nodes (chainEdges (extractConfig p).n_nodes)
      (extractConfig p).biases (extractConfig p).weights (extractConfig p).beta =
      .error ("weights length does not match number of edges", "ValueError") := by
    unfold IsingEBM.make
    rw [if_neg (by simp [hcb, hbl]), if_pos (by rw [hcw, chainEdges_length]; exact hwl)]
  have hfail := sample_ising_error p _ hmk
  exact ⟨hfail, by rw [hfail]; rfl, by decide, by decide⟩

/-- Concrete request used to witness C3: three nodes but a single weight. -/
def p3w : IsingRequest := ⟨some 3, some [1], some [0, 0, 0], none, none, none, none, none⟩

/-- Witness for C3: the mismatched request is answered by the failure
payload. -/
theorem weights_length_mismatch_error_witness :
    p3w.weights = some [1] ∧ p3w.biases = some [0, 0, 0] ∧
    (([0, 0, 0] : List ℚ)).length = (extractConfig p3w).n_nodes ∧
    (([1] : List ℚ)).length ≠ (extractConfig p3w).n_nodes - 1 ∧
    (sample_ising p3w =
      .failure "weights length does not match number of edges" "ValueError" ∧
    (sample_ising p3w).samplesOf = [] ∧
    "weights length does not match number of edges" ≠ "" ∧
    ("ValueError" : String) ≠ "") :=
  ⟨rfl, rfl, by decide, by decide,
    weights_length_mismatch_error p3w [1] [0, 0, 0] rfl rfl (by decide) (by decide)⟩

/-- C4: a payload with n_samples = 0 is answered (whenever it is answered
with the success payload at all) with an empty recorded sequence and a
reported sample count of 0, regardless of all other parameters. -/
theorem samples_zero_gives_empty (p : IsingRequest) (hz : p.n_samples = some 0)
    (s : List (List Int)) (f : Option (List Int)) (ns nn : Nat) (b : ℚ) (ne : Nat)
    (h : sample_ising p = .success s f ns nn b ne) : s = [] ∧ ns = 0 := by
  obtain ⟨model, hmk, hmodel, hs, hf, hns, hnn, hb, hne⟩ :=
    sample_ising_success_inv p s f ns nn b ne h
  have hlen : s.length = 0 := by
    rw [hs, runSamplesOf_length]
    simp [extractConfig, hz]
  exact ⟨List.length_eq_zero.mp hlen, by rw [hns, hlen]⟩

/-- Concrete request used to witness C4. -/
def p4w : IsingRequest := ⟨some 2, some [1], some [0, 0], some 1, some 0, some 0, some 1, some 0⟩

/-- Witness for C4: the zero-sample request is answered with an empty
sequence and count 0. -/
theorem samples_zero_gives_empty_witness :
    p4w.n_samples = some 0 ∧
    sample_ising p4w = IsingResponse.success [] none 0 2 1 1 ∧
    (([] : List (List Int)) = [] ∧ (0 : Nat) = 0) :=
  ⟨rfl, by decide, samples_zero_gives_empty p4w rfl [] none 0 2 1 1 (by decide)⟩

end THRML

namespace THRML

/-- The post-warmup joint state computed inside `sample_ising` once the
model has been constructed. -/
def postWarmupOf (p : IsingRequest) (model : IsingEBM) : List Int :=
  (runSweeps model (freeBlocks (extractConfig p).n_nodes) (extractConfig p).n_warmup
    ((splitKey (extractConfig p).random_key).2,
      hinton_init (splitKey (extractConfig p).random_key).1 model)).2

/-- When construction succeeds, the post-warmup state is defined. -/
theorem postWarmupState_ok (p : IsingRequest) (model : IsingEBM)
    (hmk : IsingEBM.make (extractConfig p).n_nodes (chainEdges (extractConfig p).n_nodes)
      (extractConfig p).biases (extractConfig p).weights (extractConfig p).beta = .ok model) :
    postWarmupState p = some (postWarmupOf p model) := by
  simp [postWarmupState, postWarmupOf, hmk]

/-- With zero steps per sample the handler records copies of the
post-warmup state. -/
theorem runSamplesOf_zero_sps (p : IsingRequest) (model : IsingEBM)
    (hsps : (extractConfig p).steps_per_sample = 0) :
    runSamplesOf p model =
      List.replicate (extractConfig p).n_samples (postWarmupOf p model) := by
  unfold runSamplesOf postWarmupOf
  rw [hsps, sample_states_zero_sps]

/-- C5: for steps_per_sample = 0 and n_samples = k > 0, all k recorded
samples are identical to each other and equal to the post-warmup joint
state; the configuration is answered with the success payload, not
rejected. -/
theorem zero_steps_repeats_post_warmup (p : IsingRequest) (k : Nat) (_hpos : 0 < k)
    (hsps : p.steps_per_sample = some 0) (hns : p.n_samples = some k)
    (s : List (List Int)) (f : Option (List Int)) (ns nn : Nat) (b : ℚ) (ne : Nat)
    (h : sample_ising p = .success s f ns nn b ne) :
    (postWarmupState p).isSome = true ∧
    s = List.replicate k ((postWarmupState p).getD []) := by
  obtain ⟨model, hmk, hmodel, hs, hf, hns', hnn, hb, hne⟩ :=
    sample_ising_success_inv p s f ns nn b ne h
  have hcs : (extractConfig p).steps_per_sample = 0 := by simp [extractConfig, hsps]
  have hck : (extractConfig p).n_samples = k := by simp [extractConfig, hns]
  have hpw := postWarmupState_ok p model hmk
  refine ⟨by rw [hpw]; rfl, ?_⟩
  rw [hs, runSamplesOf_zero_sps p model hcs, hck, hpw]
  rfl

/-- Concrete request used to witness C5: one warmup sweep, three samples,
zero steps between them. -/
def p5w : IsingRequest := ⟨some 2, some [1], some [0, 0], some 1, some 1, some 3, some 0, some 7⟩

unseal Rat.mul Rat.add Rat.sub Rat.inv in
/-- Witness for C5: the three recorded samples all equal the post-warmup
state. -/
theorem zero_steps_repeats_post_warmup_witness :
    ((postWarmupState p5w).isSome = true ∧
      ([[1, 1], [1, 1], [1, 1]] : List (List Int)) =
        List.replicate 3 ((postWarmupState p5w).getD [])) :=
  zero_steps_repeats_post_warmup p5w 3 (by decide) rfl rfl
    [[1, 1], [1, 1], [1, 1]] (some [1, 1]) 3 2 1 1 (by decide)

/-- Concrete request on which the recorded sequence is empty. -/
def p6cex : IsingRequest := ⟨some 2, some [1], some [0, 0], some 1, some 0, some 0, some 1, some 0⟩

/-- C6 counterexample: it is not the case that every successful response
exposes the final joint state even when the recorded sequence is empty:
for `p6cex` (n_samples = 0) the response is successful with well-formed
samples and metadata but a null final state. -/
theorem final_state_not_always_exposed :
    ¬ (∀ (p : IsingRequest) (s : List (List Int)) (f : Option (List Int))
        (ns nn : Nat) (b : ℚ) (ne : Nat),
        sample_ising p = IsingResponse.success s f ns nn b ne →
        s.all (isSpinState nn) = true ∧ f.isSome = true ∧ ns = s.length ∧
        nn = (extractConfig p).n_nodes ∧ b = (extractConfig p).beta ∧
        ne = (extractConfig p).n_nodes - 1) := by
  intro hclaim
  have h := (hclaim p6cex [] none 0 2 1 1 (by decide)).2.1
  simp at h

/-- C6 as amended: every successful response carries the ordered recorded
states (each a length-n_nodes sequence of spins), the final joint state
whenever at least one sample was recorded (`samples[-1]`, null when the
sequence is empty), and the metadata node count, beta and edge count. -/
theorem success_response_shape (p : IsingRequest) (s : List (List Int))
    (f : Option (List Int)) (ns nn : Nat) (b : ℚ) (ne : Nat)
    (h : sample_ising p = .success s f ns nn b ne) :
    s.all (isSpinState nn) = true ∧ f = s.getLast? ∧ ns = s.length ∧
    nn = (extractConfig p).n_nodes ∧ b = (extractConfig p).beta ∧
    ne = (extractConfig p).n_nodes - 1 := by
  obtain ⟨model, hmk, hmodel, hs, hf, hns, hnn, hb, hne⟩ :=
    sample_ising_success_inv p s f ns nn b ne h
  have hmn : model.n_nodes = (extractConfig p).n_nodes := by rw [hmodel]
  refine ⟨?_, by rw [hf, hs], by rw [hns, hs], hnn, hb, by rw [hne, chainEdges_length]⟩
  rw [hs, hnn, ← hmn]
  exact runSamplesOf_all_spin p model

/-- Concrete request used to witness the amended C6. -/
def p6a : IsingRequest := ⟨some 2, some [1], some [0, 0], some 1, some 0, some 1, some 1, some 0⟩

unseal Rat.mul Rat.add Rat.sub Rat.inv in
/-- Witness for the amended C6 at a request recording one sample. -/
theorem success_response_shape_witness :
    ([[1, 1]] : List (List Int)).all (isSpinState 2) = true ∧
    (some [1, 1] : Option (List Int)) = ([[1, 1]] : List (List Int)).getLast? ∧
    (1 : Nat) = ([[1, 1]] : List (List Int)).length ∧
    (2 : Nat) = (extractConfig p6a).n_nodes ∧
    (1 : ℚ) = (extractConfig p6a).beta ∧
    (1 : Nat) = (extractConfig p6a).n_nodes - 1 :=
  success_response_shape p6a [[1, 1]] (some [1, 1]) 1 2 1 1 (by decide)

/-- Following the spec's words (section 6): fill every absent numeric field
with its documented default, beta = 1.0, warmup = 100, samples = 1000,
steps_per_sample = 2, seed = 0. -/
def fillNumericDefaults (p : IsingRequest) : IsingRequest :=
  { p with beta := some (p.beta.getD 1),
           n_warmup := some (p.n_warmup.getD 100),
           n_samples := some (p.n_samples.getD 1000),
           steps_per_sample := some (p.steps_per_sample.getD 2),
           random_key := some (p.random_key.getD 0) }

/-- C7: each absent numeric field takes its documented default (filling the
absent numeric fields with the documented constants does not change the
response), and the endpoint succeeds when every field is omitted. -/
theorem numeric_defaults_applied :
    (∀ p : IsingRequest, sample_ising (fillNumericDefaults p) = sample_ising p) ∧
    (sample_ising ⟨none, none, none, none, none, none, none, none⟩).isSuccess = true := by
  constructor
  · intro p
    have hc : extractConfig (fillNumericDefaults p) = extractConfig p := by
      obtain ⟨a1, a2, a3, a4, a5, a6, a7, a8⟩ := p
      simp [fillNumericDefaults, extractConfig]
    simp only [sample_ising, hc]
  · rfl

/-- Concrete scenario request of the spec (section 8). -/
def p8 : IsingRequest :=
  ⟨some 3, some [1, 1], some [0, 0, 0], some 1, some 50, some 5, some 1, some 42⟩

/-- The model the endpoint constructs for `p8`. -/
def M8 : IsingEBM := ⟨3, chainEdges 3, [0, 0, 0], [1, 1], 1⟩

/-- C8: the scenario request (3 nodes, unit weights, zero biases, beta 1,
warmup 50, 5 samples, 1 step per sample, seed 42) succeeds with exactly 5
recorded states, each a length-3 sequence of values in β-1, 1β. -/
theorem scenario_request_five_states :
    (sample_ising p8).isSuccess = true ∧
    (sample_ising p8).samplesOf.length = 5 ∧
    (sample_ising p8).samplesOf.all (isSpinState 3) = true := by
  have hmk : IsingEBM.make (extractConfig p8).n_nodes (chainEdges (extractConfig p8).n_nodes)
      (extractConfig p8).biases (extractConfig p8).weights (extractConfig p8).beta =
      .ok M8 := rfl
  rw [sample_ising_ok p8 M8 hmk]
  refine ⟨rfl, ?_, ?_⟩
  · simp only [IsingResponse.samplesOf]
    rw [runSamplesOf_length]
    rfl
  · simp only [IsingResponse.samplesOf]
    exact runSamplesOf_all_spin p8 M8

end THRML

namespace THRML

/-- C9: the /sample/ising/stream endpoint re-initializes the chain from
scratch on every call: the server state is never written, the response does
not depend on it, and two successive calls with the identical payload
return identical responses. -/
theorem stream_reinitializes_each_call :
    (∀ (p : IsingRequest) (st : ServerState), (sample_ising_stream_run p st).2 = st) ∧
    (∀ (p : IsingRequest) (st st' : ServerState),
      (sample_ising_stream_run p st).1 = (sample_ising_stream_run p st').1) ∧
    (∀ (p : IsingRequest) (st : ServerState),
      (sample_ising_stream_run p ((sample_ising_stream_run p st).2)).1 =
        (sample_ising_stream_run p st).1) :=
  ⟨fun _ _ => rfl, fun _ _ _ => rfl, fun _ _ => rfl⟩

/-- The sample list computed inside `sample_ising_stream` once the model
has been constructed. -/
def streamSamplesOf (p : IsingRequest) (model : IsingEBM) : List (List Int) :=
  sample_states (splitKey (p.random_key.getD 0)).2 model (freeBlocks (p.n_nodes.getD 5))
    ⟨0, 1, p.steps_per_sample.getD 2⟩
    (hinton_init (splitKey (p.random_key.getD 0)).1 model)

/-- When model construction fails, the stream endpoint returns the failure
payload. -/
theorem sample_ising_stream_error (p : IsingRequest) (e : String × String)
    (hmk : IsingEBM.make (p.n_nodes.getD 5) (chainEdges (p.n_nodes.getD 5))
      (p.biases.getD (List.replicate (p.n_nodes.getD 5) 0))
      (p.weights.getD (List.replicate ((p.n_nodes.getD 5) - 1) (1 / 2 : ℚ)))
      (p.beta.getD 1) = .error e) :
    sample_ising_stream p = .failure e.1 e.2 := by
  simp only [sample_ising_stream]
  rw [hmk]

/-- When model construction succeeds, the stream endpoint returns the first
and last recorded state of its one-sample schedule. -/
theorem sample_ising_stream_ok (p : IsingRequest) (model : IsingEBM)
    (hmk : IsingEBM.make (p.n_nodes.getD 5) (chainEdges (p.n_nodes.getD 5))
      (p.biases.getD (List.replicate (p.n_nodes.getD 5) 0))
      (p.weights.getD (List.replicate ((p.n_nodes.getD 5) - 1) (1 / 2 : ℚ)))
      (p.beta.getD 1) = .ok model) :
    sample_ising_stream p =
      .success (streamSamplesOf p model).head? (streamSamplesOf p model).getLast? := by
  simp only [sample_ising_stream, streamSamplesOf]
  rw [hmk]

/-- C10: the stream endpoint ignores the n_warmup and n_samples request
fields (its schedule is fixed to zero warmup and one recorded sample), and
on success its sample and state response fields are equal. -/
theorem stream_fixed_schedule :
    (∀ (p : IsingRequest) (w s : Option Nat),
      sample_ising_stream { p with n_warmup := w, n_samples := s } =
        sample_ising_stream p) ∧
    (∀ (p : IsingRequest) (sm st : Option (List Int)),
      sample_ising_stream p = StreamResponse.success sm st → sm = st) := by
  constructor
  · intro p w s
    obtain ⟨a1, a2, a3, a4, a5, a6, a7, a8⟩ := p
    rfl
  · intro p sm st h
    cases hmk : IsingEBM.make (p.n_nodes.getD 5) (chainEdges (p.n_nodes.getD 5))
        (p.biases.getD (List.replicate (p.n_nodes.getD 5) 0))
        (p.weights.getD (List.replicate ((p.n_nodes.getD 5) - 1) (1 / 2 : ℚ)))
        (p.beta.getD 1) with
    | error e => rw [sample_ising_stream_error p e hmk] at h; cases h
    | ok model =>
      rw [sample_ising_stream_ok p model hmk] at h
      have hlen : (streamSamplesOf p model).length = 1 := sample_states_length ..
      obtain ⟨a, ha⟩ := List.length_eq_one.mp hlen
      cases h
      rw [ha]
      rfl

/-- Concrete request used to witness C10. -/
def p10w : IsingRequest := ⟨some 2, some [1], some [0, 0], some 1, none, none, some 1, some 3⟩

unseal Rat.mul Rat.add Rat.sub Rat.inv in
/-- Witness for C10: on this request the stream response's sample and state
coincide. -/
theorem stream_fixed_schedule_witness :
    sample_ising_stream p10w = StreamResponse.success (some [-1, 1]) (some [-1, 1]) ∧
    (some [-1, 1] : Option (List Int)) = some [-1, 1] :=
  ⟨by decide, stream_fixed_schedule.2 p10w (some [-1, 1]) (some [-1, 1]) (by decide)⟩

end THRML
